import Mathlib

/-!
Verification development for the Agent Application Context (AAC) core:
a shallow embedding, in Lean 4, of the event-interception pipeline
(`aac/aspects/engine.py`), the lifecycle state machine
(`aac/lifecycle/manager.py`), the synchronous execution path and shutdown
(`aac/context.py`), the async cancel accessor (`aac/server/app.py`, with the
context-side accessor modelled from the specification, since it is not in
the source tree), and the workflow interpreter
(`aac/orchestration/engine.py`).

Conventions of the embedding:
- Python floats (costs in USD) are modelled as exact rationals `ℚ`;
  millisecond durations and counters as `Nat`.
- Python `None`-able strings are `Option String`; Python truthiness of a
  `str | None` value (`if not x:`) is `optFalsy`.
- Python dictionaries threaded through the workflow context are modelled by
  the insertion-ordered association list `PyDict` over the dynamic value
  type `PyVal` (mirroring `dict.get`, `d[k] = v`, truthiness).
- The wall clock (`time.monotonic()`) is an environment input: functions
  that read it take the measured elapsed milliseconds as a parameter.
- Runtime adapters, aspect-handler bodies and lifecycle callbacks are
  collaborator code; they enter the model as oracle functions / outcome
  values, exactly at the call boundary the source uses.
- Python string helpers used by the source (`str.split` with a one-char
  separator, `str.replace`, stable `list.sort`) are re-implemented at the
  character-list level so that every definition reduces inside the kernel.
-/

namespace AAC

/-! ### Python-style primitive helpers -/

/-- Truthiness of a Python `str | None` value: `None` and `""` are falsy. -/
def optFalsy : Option String → Bool
  | none => true
  | some s => s = ""

/-- Python `s.split(sep)` for a one-character separator, on character lists:
`"a.b".split(".") = ["a","b"]`, `"".split(".") = [""]`, `"a..b".split(".")
= ["a","","b"]`. -/
def chSplit (sep : Char) : List Char → List String
  | [] => [""]
  | c :: rest =>
    let r := chSplit sep rest
    if c = sep then "" :: r
    else
      match r with
      | [] => [String.mk [c]]
      | s :: ss => String.mk (c :: s.data) :: ss

/-- Python `s.split(sep)` for a one-character separator. -/
def pySplit (sep : Char) (s : String) : List String :=
  chSplit sep s.data

/-- Worker for `pyReplace`: replaces every non-overlapping occurrence of
`old` left-to-right. The fuel is the length of the subject, enough because
each step consumes at least one character when `old` is nonempty (the
source only ever replaces nonempty `{{key}}` patterns). -/
def replaceChars (old new : List Char) : Nat → List Char → List Char
  | 0, l => l
  | _ + 1, [] => []
  | fuel + 1, c :: rest =>
    if old.isPrefixOf (c :: rest) then
      new ++ replaceChars old new fuel ((c :: rest).drop old.length)
    else
      c :: replaceChars old new fuel rest

/-- Python `s.replace(old, new)` for a nonempty `old`. -/
def pyReplace (s old new : String) : String :=
  String.mk (replaceChars old.data new.data s.data.length s.data)

/-- Dynamic Python value, as stored in the workflow shared context:
`None`, booleans, strings, integers and string-keyed dictionaries cover
every value the engine reads or writes there. -/
inductive PyVal where
  | vnone
  | vbool (b : Bool)
  | vstr (s : String)
  | vint (n : Int)
  | vdict (entries : List (String × PyVal))

/-- Insertion-ordered string-keyed dictionary (Python `dict`). -/
abbrev PyDict := List (String × PyVal)

/-- Python `d.get(k)`: the stored value, or `None` when the key is absent
(a stored `None` and an absent key are indistinguishable, as in Python). -/
def dictGet (d : PyDict) (k : String) : PyVal :=
  match d.find? (fun p => p.1 = k) with
  | some p => p.2
  | none => PyVal.vnone

/-- Python `d.get(k, default)`: the stored value (even a stored `None`),
or `default` when the key is absent. -/
def dictGetD (d : PyDict) (k : String) (dflt : PyVal) : PyVal :=
  match d.find? (fun p => p.1 = k) with
  | some p => p.2
  | none => dflt

/-- Python `d[k] = v`: overwrite in place, else append (insertion order). -/
def dictSet (d : PyDict) (k : String) (v : PyVal) : PyDict :=
  if d.any (fun p => p.1 = k) then
    d.map (fun p => if p.1 = k then (k, v) else p)
  else
    d ++ [(k, v)]

/-- Python truthiness of a dynamic value. -/
def pyTruthy : PyVal → Bool
  | .vnone => false
  | .vbool b => b
  | .vstr s => s ≠ ""
  | .vint n => n ≠ 0
  | .vdict d => !d.isEmpty

/-- Python `type(v).__name__`, used in `AttributeError` messages. -/
def pyTypeName : PyVal → String
  | .vnone => "NoneType"
  | .vbool _ => "bool"
  | .vstr _ => "str"
  | .vint _ => "int"
  | .vdict _ => "dict"

/-- Python `str(v)` for the values the engine interpolates into prompts. -/
def pyStr : PyVal → String
  | .vnone => "None"
  | .vbool b => if b then "True" else "False"
  | .vstr s => s
  | .vint n => toString n
  | .vdict _ => "\x7b...\x7d"

/-! ### Event pipeline (`aac/aspects/engine.py`)

`AspectEngine` keeps a list of handlers, re-sorted ascending by `order` on
every registration (Python `list.sort` is stable). `apply` walks the
sorted list, skips non-matching handlers, and invokes the rest in order,
catching and logging every handler exception (lines 148-161). A handler
body is collaborator code: it is modelled as a function from the event
type and context to `Except`, where `Except.error` is a raised exception. -/

/-- Mutable context handed to every matched handler (`AspectContext`).
Only the fields the engine itself reads are modelled structurally; the
rest of the context is carried opaquely in `payload`. -/
structure AspectCtx where
  agentName : String
  eventType : String := ""
  payload : PyDict := []

/-- One registered handler (`AspectHandler` built from an `AspectManifest`):
matching data plus the handler body. `run` returning `Except.error e` is
the handler raising an exception with message `e`; a successful run hands
back the mutated free-form part of the context (none of the handlers in
the repository writes the identity fields the engine matches on). -/
structure AspectHandler where
  name : String
  order : Int
  events : List String
  targetAgents : List String
  run : String → AspectCtx → Except String PyDict

/-- `AspectEngine._matches` (lines 163-178): a non-empty `events` list must
contain the event type, and a non-empty `agents` list must contain the
context agent name. -/
def matchesHandler (h : AspectHandler) (eventType agentName : String) : Bool :=
  if h.events ≠ [] ∧ ¬ h.events.contains eventType then false
  else if h.targetAgents ≠ [] ∧ ¬ h.targetAgents.contains agentName then false
  else true

/-- Stable insertion of a handler into a list sorted ascending by `order`:
the new element goes after every element with order less than or equal to
its own. -/
def ordInsert (a : AspectHandler) : List AspectHandler → List AspectHandler
  | [] => [a]
  | b :: l => if a.order ≤ b.order then a :: b :: l else b :: ordInsert a l

/-- Model of Python `handlers.sort(key=lambda h: h.order)`: a stable
ascending sort by `order` (insertion sort is stable, like Timsort). -/
def pySortByOrder : List AspectHandler → List AspectHandler
  | [] => []
  | a :: l => ordInsert a (pySortByOrder l)

/-- `AspectEngine.register` (lines 113-124): append the new handler, then
re-sort the whole list by ascending `order`. -/
def registerHandler (hs : List AspectHandler) (h : AspectHandler) : List AspectHandler :=
  pySortByOrder (hs ++ [h])

/-- Registering a whole sequence of handlers in order, starting from the
empty engine. -/
def registerAll (regs : List AspectHandler) : List AspectHandler :=
  regs.foldl registerHandler []

/-- Result of one `apply` dispatch: the final context, the names of the
handlers that were invoked (in invocation order), and the logged error
messages of the handlers that raised. -/
structure ApplyResult where
  ctx : AspectCtx
  invoked : List String
  logged : List String

/-- Worker for `applyEngine`: walk the handler list in order; skip
non-matching handlers; invoke the rest, catching a raised exception (the
`try`/`except` of lines 152-161) and logging it, never stopping the walk.
A handler that raises is modelled as leaving the context unchanged. -/
def applyGo (eventType : String) : List AspectHandler → AspectCtx → ApplyResult
  | [], ctx => ⟨ctx, [], []⟩
  | h :: t, ctx =>
    if matchesHandler h eventType ctx.agentName then
      match h.run eventType ctx with
      | .ok payload2 =>
        let r := applyGo eventType t { ctx with payload := payload2 }
        ⟨r.ctx, h.name :: r.invoked, r.logged⟩
      | .error e =>
        let r := applyGo eventType t ctx
        ⟨r.ctx, h.name :: r.invoked, e :: r.logged⟩
    else
      applyGo eventType t ctx

/-- `AspectEngine.apply` (lines 134-161): sets `ctx.event_type`, then walks
the sorted handler list. The function is total: dispatch always returns
normally to its caller, whatever the handlers do. -/
def applyEngine (hs : List AspectHandler) (eventType : String) (ctx : AspectCtx) : ApplyResult :=
  applyGo eventType hs { ctx with eventType := eventType }

/-! ### Lifecycle coordinator (`aac/lifecycle/manager.py`)

`AgentStatus` and the `VALID_TRANSITIONS` table are taken verbatim from
`aac/models/instance.py` and `aac/lifecycle/manager.py` (lines 84-101).
`LifecycleManager.transition` validates the move before any mutation,
raising `ValueError` (the InvalidTransition error) on an illegal pair,
otherwise mutating the status, appending a bounded history record and
invoking callbacks with isolation. Timestamps are dropped (wall clock). -/

/-- The agent lifecycle states (`AgentStatus` in `aac/models/instance.py`). -/
inductive AgentStatus where
  | registered
  | lazy
  | initializing
  | ready
  | executing
  | error
  | destroying
  | destroyed
deriving DecidableEq

/-- The `.value` string of each status. -/
def statusValue : AgentStatus → String
  | .registered => "REGISTERED"
  | .lazy => "LAZY"
  | .initializing => "INITIALIZING"
  | .ready => "READY"
  | .executing => "EXECUTING"
  | .error => "ERROR"
  | .destroying => "DESTROYING"
  | .destroyed => "DESTROYED"

/-- `VALID_TRANSITIONS` (manager.py lines 84-101), as source → allowed
targets. -/
def validTransitions : AgentStatus → List AgentStatus
  | .registered => [.initializing, .lazy]
  | .lazy => [.initializing]
  | .initializing => [.ready, .error]
  | .ready => [.executing, .destroying, .error]
  | .executing => [.ready, .error, .destroying]
  | .error => [.initializing, .destroying]
  | .destroying => [.destroyed, .error]
  | .destroyed => []

/-- The live, mutable record of one agent instance (`AgentInstance`),
restricted to the fields the verified paths read or write. `runtimeBound`
is `agent.runtime is not None`. -/
structure AgentInstance where
  name : String
  status : AgentStatus := .registered
  runtimeBound : Bool := false
  queryCount : Nat := 0
  totalCostUsd : ℚ := 0
  totalDurationMs : Nat := 0

/-- One appended history record (`LifecycleEvent`, timestamp dropped). -/
structure LifecycleEvent where
  agentName : String
  oldStatus : AgentStatus
  newStatus : AgentStatus
  error : Option String := none
deriving DecidableEq

/-- The manager's own mutable state: the bounded event history, its cap
(`_max_events = 500`) and the registered callbacks. A callback returning
`Except.error` is a callback raising. -/
structure ManagerState where
  events : List LifecycleEvent := []
  maxEvents : Nat := 500
  callbacks : List (LifecycleEvent → Except String Unit) := []

/-- The `ValueError` message of an invalid transition (manager.py lines
140-144). -/
def invalidTransitionMsg (a : AgentInstance) (tgt : AgentStatus) : String :=
  "Agent \x27" ++ a.name ++ "\x27: " ++ statusValue a.status ++ " → "
    ++ statusValue tgt ++ " 전이 불가. 허용: ["
    ++ String.intercalate ", "
        ((validTransitions a.status).map (fun s => "\x27" ++ statusValue s ++ "\x27"))
    ++ "]"

/-- History append with trimming (manager.py lines 158-160): keep only the
most recent `maxEvents` records. -/
def appendEvent (st : ManagerState) (ev : LifecycleEvent) : ManagerState :=
  let evs := st.events ++ [ev]
  if evs.length > st.maxEvents then
    { st with events := evs.drop (evs.length - st.maxEvents) }
  else
    { st with events := evs }

/-- `LifecycleManager.transition` (lines 123-179). The Python method
mutates in place; here the post-states are returned alongside the
`Except`: an invalid pair raises *before* any mutation, so the returned
state and agent are the inputs unchanged; a valid pair mutates the status,
appends the trimmed history record and fires the callbacks, each isolated
by the `try`/`except` of lines 163-171 (a raising callback changes
nothing observable). -/
def transition (st : ManagerState) (a : AgentInstance) (newStatus : AgentStatus)
    (err : Option String) :
    ManagerState × AgentInstance × Except String LifecycleEvent :=
  if newStatus ∈ validTransitions a.status then
    let ev : LifecycleEvent :=
      { agentName := a.name, oldStatus := a.status, newStatus := newStatus, error := err }
    (appendEvent st ev, { a with status := newStatus }, .ok ev)
  else
    (st, a, .error (invalidTransitionMsg a newStatus))

/-! ### Execution tracker: synchronous path and shutdown (`aac/context.py`)

`AgentApplicationContext.execute` (lines 193-266) resolves the handle,
lazily re-creating a LAZY one through the factory, rejects a missing
runtime, then assigns `EXECUTING` directly to the status field, performs
the blocking runtime call, and on return assigns `READY` and bumps the
cumulative counters. There is no `try`/`except` around the runtime call:
an exception propagates to the caller with the status left as assigned.
The runtime adapter is a collaborator: its call is an outcome value, and
`ExecutionResult.success` is the derived property `error is None`
(`aac/runtime/base.py` lines 38-40). -/

/-- Outcome of one blocking runtime call (`AgentRuntime.execute`):
either a returned `ExecutionResult` (fields the tracker reads) or a raised
exception. -/
inductive RuntimeOutcome where
  | returns (response : String) (error : Option String) (costUsd : ℚ)
      (durationMs : Nat) (model : String)
  | raises (msg : String)

/-- The dictionary `AgentApplicationContext.execute` returns (lines
255-266). -/
structure ExecuteResult where
  executionId : String
  sessionId : String
  txId : String
  agent : String
  result : String
  success : Bool
  error : Option String
  costUsd : ℚ
  durationMs : Nat
  model : String

/-- Observable outcome of one `execute` call: the post-state of the handle
(mutations persist even when the call raises), the sequence of values
assigned to `status` during the call, and the returned dictionary or the
propagated exception. -/
structure ExecuteOut where
  handle : AgentInstance
  statusTrace : List AgentStatus
  ret : Except String ExecuteResult

/-- `AgentApplicationContext.execute` (context.py lines 205-266), for an
agent already found in the handle table. `factoryResult` is the instance
the DI factory would build for a LAZY handle (`none` models the missing
manifest/factory guard of lines 209-213); `sessionId`, `txId` and
`executionId` are the generated identifiers (line 219-222). -/
def ctxExecute (agent0 : AgentInstance) (outcome : RuntimeOutcome)
    (factoryResult : Option AgentInstance)
    (sessionId txId executionId : String) : ExecuteOut :=
  let agent :=
    if agent0.status = .lazy then
      match factoryResult with
      | some fresh => fresh
      | none => agent0
    else agent0
  if agent.runtimeBound = false then
    { handle := agent, statusTrace := [],
      ret := .error ("Agent \x27" ++ agent.name ++ "\x27의 runtime이 초기화되지 않았습니다") }
  else
    let a1 := { agent with status := AgentStatus.executing }
    match outcome with
    | .raises e =>
      { handle := a1, statusTrace := [.executing], ret := .error e }
    | .returns response err cost dur model =>
      let a2 := { a1 with
        status := AgentStatus.ready,
        queryCount := a1.queryCount + 1,
        totalCostUsd := a1.totalCostUsd + cost,
        totalDurationMs := a1.totalDurationMs + dur }
      { handle := a2, statusTrace := [.executing, .ready],
        ret := .ok {
          executionId := executionId, sessionId := sessionId, txId := txId,
          agent := agent.name, result := response,
          success := err = none, error := err,
          costUsd := cost, durationMs := dur, model := model } }

/-- `AgentApplicationContext.shutdown` (context.py lines 268-280): every
handle with a bound runtime that is not LAZY is assigned `DESTROYING`,
its runtime shut down, then assigned `DESTROYED`; an exception from the
runtime is caught and only logged, leaving that handle in `DESTROYING`.
`shutdownRaises` tells, per agent name, whether the collaborator
`runtime.shutdown()` raises. -/
def ctxShutdown (agents : List AgentInstance) (shutdownRaises : String → Bool) :
    List AgentInstance :=
  agents.map (fun a =>
    if a.runtimeBound ∧ a.status ≠ .lazy then
      if shutdownRaises a.name then { a with status := AgentStatus.destroying }
      else { a with status := AgentStatus.destroyed }
    else a)

/-! ### Async execution records and cancel

The execution-record table and its accessors (`execute_async`,
`get_execution`, `cancel_execution` on the context) are referenced by the
HTTP endpoint (`aac/server/app.py` lines 204-225) and by the test suite,
but their implementation file is not part of the source tree; the
accessors are therefore modelled from the specification. What is in the
source tree is embedded as is: the DELETE endpoint first checks existence
through `get_execution` (404 on a miss) and then maps the boolean from
`cancel_execution` onto a response body. -/

/-- One execution record; the status strings are those observed in the
endpoint and tests: `running`, `completed`, `error`, `cancelled`. -/
structure ExecutionRecord where
  executionId : String
  agent : String
  status : String
  result : Option String := none
  error : Option String := none
  costUsd : ℚ := 0
  durationMs : Nat := 0
deriving DecidableEq

/-- The execution-record table, keyed by execution id. -/
abbrev ExecTable := List (String × ExecutionRecord)

/-- Table lookup by execution id. -/
def execLookup (t : ExecTable) (execId : String) : Option ExecutionRecord :=
  match t.find? (fun p => p.1 = execId) with
  | some p => some p.2
  | none => none

/-- In-place record update by execution id. -/
def execSet (t : ExecTable) (execId : String) (r : ExecutionRecord) : ExecTable :=
  t.map (fun p => if p.1 = execId then (execId, r) else p)

/-- Modelled from the spec: `AgentApplicationContext.get_execution` — "A
`poll(executionId)` accessor returns the current record or fails with
NotFound" (§4.3). The implementation is not under the source tree (only
the endpoint and the tests call it; the tests expect `KeyError` on a
miss). -/
def get_execution (t : ExecTable) (execId : String) : Except String ExecutionRecord :=
  match execLookup t execId with
  | some r => .ok r
  | none => .error ("Execution \x27" ++ execId ++ "\x27 not found")

/-- Result of one `cancel_execution` call: the returned flag or raised
NotFound, the post-call table, and the ids of the background tasks that
were cancelled by the call. -/
structure CancelOut where
  ret : Except String Bool
  table : ExecTable
  cancelledTasks : List String

/-- Modelled from the spec: `AgentApplicationContext.cancel_execution` —
"A `cancel(executionId)` accessor: if the execution is not found, fails
with NotFound; if found and still running, cancels the background task and
marks the record `cancelled`, returning success; if already terminal,
returns a no-op success=false signal (not an error)" (§4.3). The
implementation is not under the source tree. -/
def cancel_execution (t : ExecTable) (execId : String) : CancelOut :=
  match execLookup t execId with
  | none =>
    { ret := .error ("Execution \x27" ++ execId ++ "\x27 not found"),
      table := t, cancelledTasks := [] }
  | some r =>
    if r.status = "running" then
      { ret := .ok true,
        table := execSet t execId { r with status := "cancelled" },
        cancelledTasks := [execId] }
    else
      { ret := .ok false, table := t, cancelledTasks := [] }

/-- The DELETE `/api/executions/{id}` endpoint (`aac/server/app.py` lines
212-225): 404 when `get_execution` raises, otherwise the body
`{"status": "cancelled"}` or `{"status": "not_cancellable"}` according to
the flag from `cancel_execution`. Returned as (HTTP status, body status
string, post table). -/
def cancelEndpoint (t : ExecTable) (execId : String) : Nat × String × ExecTable :=
  match get_execution t execId with
  | .error _ => (404, "", t)
  | .ok _ =>
    let out := cancel_execution t execId
    match out.ret with
    | .ok true => (200, "cancelled", out.table)
    | .ok false => (200, "not_cancellable", out.table)
    | .error _ => (500, "", out.table)

/-! ### Workflow interpreter (`aac/orchestration/engine.py`)

The engine runs top-level steps in order over a shared mutable context,
accumulating totals and checking ceilings after each step, then overwrites
the total duration with the measured wall-clock elapsed time (lines
158-159). Steps are agent calls (with a retry loop around exceptions
only), parallel groups (sub-steps gathered, then aggregated), and
conditional branches (a dotted-path expression over the shared context).
The `ctx.execute` coroutine is the collaborator boundary: it is modelled
as an oracle from the agent name, resolved prompt, shared context and
attempt number to an outcome. Recursion through conditional targets can
revisit arbitrary steps of the manifest (a condition may even target
itself), so the interpreter recursion carries explicit fuel, standing for
Python's finite recursion budget; exhausted fuel is a raised exception. -/

/-- `StepType` (`aac/models/workflow.py`). -/
inductive StepType where
  | agent
  | condition
  | parallel
deriving DecidableEq

/-- `OnFailure` (`aac/models/workflow.py`). -/
inductive OnFailure where
  | stop
  | skip
  | retry
deriving DecidableEq

/-- `WorkflowStep` (`aac/models/workflow.py`). Python's
`steps: list[WorkflowStep] | None` is a plain list here: every use in the
engine is a truthiness test (`if not step.steps`, `if step.steps`), under
which `None` and `[]` coincide. -/
inductive WorkflowStep where
  | mk (name : String) (type : StepType) (agent : Option String)
      (prompt : Option String) (inputFrom : Option String)
      (onFailure : OnFailure) (retryCount : Nat)
      (steps : List WorkflowStep)
      (condition : Option String) (ifTrue : Option String) (ifFalse : Option String)

def WorkflowStep.name : WorkflowStep → String
  | .mk n _ _ _ _ _ _ _ _ _ _ => n

def WorkflowStep.type : WorkflowStep → StepType
  | .mk _ t _ _ _ _ _ _ _ _ _ => t

def WorkflowStep.agent : WorkflowStep → Option String
  | .mk _ _ a _ _ _ _ _ _ _ _ => a

def WorkflowStep.prompt : WorkflowStep → Option String
  | .mk _ _ _ p _ _ _ _ _ _ _ => p

def WorkflowStep.inputFrom : WorkflowStep → Option String
  | .mk _ _ _ _ i _ _ _ _ _ _ => i

def WorkflowStep.onFailure : WorkflowStep → OnFailure
  | .mk _ _ _ _ _ f _ _ _ _ _ => f

def WorkflowStep.retryCount : WorkflowStep → Nat
  | .mk _ _ _ _ _ _ r _ _ _ _ => r

def WorkflowStep.steps : WorkflowStep → List WorkflowStep
  | .mk _ _ _ _ _ _ _ s _ _ _ => s

def WorkflowStep.condition : WorkflowStep → Option String
  | .mk _ _ _ _ _ _ _ _ c _ _ => c

def WorkflowStep.ifTrue : WorkflowStep → Option String
  | .mk _ _ _ _ _ _ _ _ _ t _ => t

def WorkflowStep.ifFalse : WorkflowStep → Option String
  | .mk _ _ _ _ _ _ _ _ _ _ f => f

/-- An agent step with the engine-relevant fields (the constructor
defaults of the pydantic model). -/
def agentStep (name : String) (agent prompt : Option String)
    (inputFrom : Option String := none) (onFailure : OnFailure := .stop)
    (retryCount : Nat := 0) : WorkflowStep :=
  .mk name .agent agent prompt inputFrom onFailure retryCount [] none none none

/-- A parallel group step. -/
def parallelStep (name : String) (steps : List WorkflowStep)
    (onFailure : OnFailure := .stop) : WorkflowStep :=
  .mk name .parallel none none none onFailure 0 steps none none none

/-- A conditional step. -/
def conditionStep (name : String) (condition ifTrue ifFalse : Option String)
    (onFailure : OnFailure := .stop) : WorkflowStep :=
  .mk name .condition none none none onFailure 0 [] condition ifTrue ifFalse

/-- `WorkflowSpec` plus the manifest name (`WorkflowManifest`), restricted
to what the engine reads. -/
structure WorkflowManifest where
  name : String
  steps : List WorkflowStep
  maxTotalCostUsd : Option ℚ := none
  maxTotalDurationSeconds : Option Nat := none
  context : PyDict := []

/-- `StepResult` (engine.py lines 33-58), with the dataclass defaults. -/
structure StepResult where
  name : String
  agent : Option String := none
  success : Bool := false
  result : Option String := none
  error : Option String := none
  costUsd : ℚ := 0
  durationMs : Nat := 0
  skipped : Bool := false
  retries : Nat := 0
deriving DecidableEq

/-- `WorkflowResult` (engine.py lines 61-81). -/
structure WorkflowResult where
  workflowName : String
  success : Bool := false
  steps : List StepResult := []
  totalCostUsd : ℚ := 0
  totalDurationMs : Nat := 0
  context : PyDict := []
  error : Option String := none

/-- The part of the workflow result a step execution can mutate in place
(`wf_result.steps` and `wf_result.context`). -/
structure WfState where
  steps : List StepResult
  context : PyDict

/-- Outcome of one `ctx.execute` call as the engine reads it
(`result.get("success", False)` etc., lines 225-229), or a raised
exception (the only thing the retry loop catches). -/
inductive ExecOutcome where
  | returns (success : Bool) (result : String) (error : Option String)
      (costUsd : ℚ) (durationMs : Nat)
  | raises (msg : String)

/-- The collaborator boundary: agent name, resolved prompt, shared context
and per-step attempt number (0-based) to the outcome of that call. -/
abbrev Oracle := String → String → PyDict → Nat → ExecOutcome

/-- The `{"success": ..., "result": ..., "error": ...}` dictionary merged
into the shared context for a completed step (engine.py lines 132-136 and
306-310). -/
def stepDict (r : StepResult) : PyVal :=
  .vdict [("success", .vbool r.success),
          ("result", match r.result with | some s => .vstr s | none => .vnone),
          ("error", match r.error with | some s => .vstr s | none => .vnone)]

/-- `WorkflowEngine._evaluate_condition` (lines 383-405): split the
expression on dots and walk the shared context; a non-dict intermediate or
a `None` value short-circuits to false; the final value is read for
truthiness. -/
def condWalk : List String → PyVal → Bool
  | [], cur => pyTruthy cur
  | p :: rest, cur =>
    match cur with
    | .vdict d =>
      match dictGet d p with
      | .vnone => false
      | nxt => condWalk rest nxt
    | _ => false

def evaluateCondition (condition : String) (context : PyDict) : Bool :=
  condWalk (pySplit '.' condition) (.vdict context)

/-- `WorkflowEngine._find_step` (lines 407-418): first depth-first match by
name, descending into nested sub-step lists. The fuel bounds the recursion
(one unit per visited node); any fuel at least the number of nodes is
enough. -/
def findStep (fuel : Nat) (target : String) (steps : List WorkflowStep) :
    Option WorkflowStep :=
  match fuel, steps with
  | 0, _ => none
  | _ + 1, [] => none
  | fuel + 1, s :: rest =>
    if s.name = target then some s
    else
      match findStep fuel target s.steps with
      | some found => some found
      | none => findStep fuel target rest

/-- `WorkflowEngine._check_limits` (lines 420-437). The Python guards are
truthiness tests on the optional ceilings: an absent or zero ceiling is
never checked; an exceeded ceiling means the running total is strictly
greater. -/
def checkDurationLimit (mf : WorkflowManifest) (wf : WorkflowResult) : Bool :=
  match mf.maxTotalDurationSeconds with
  | some d => if d ≠ 0 ∧ wf.totalDurationMs > d * 1000 then true else false
  | none => false

def checkLimits (mf : WorkflowManifest) (wf : WorkflowResult) : Bool :=
  match mf.maxTotalCostUsd with
  | some c =>
    if c ≠ 0 ∧ wf.totalCostUsd > c then true else checkDurationLimit mf wf
  | none => checkDurationLimit mf wf

/-- `WorkflowEngine._resolve_prompt` (lines 360-381): `None`/empty prompt
resolves to `None`; an `input_from` reference appends the previous result
under the literal marker when truthy (raising `AttributeError` when the
`steps.<name>` context entry is not a dict, since `.get` is called on it);
then every `{{key}}` token with a string-valued context entry is
substituted, in context insertion order. `Except.error` is a raised
exception. -/
def resolveInputPart (step : WorkflowStep) (context : PyDict) (prompt : String) :
    Except String String :=
  if optFalsy step.inputFrom then .ok prompt
  else
    let key := "steps." ++ (step.inputFrom.getD "")
    let prev := dictGetD context key (.vdict [])
    match prev with
    | .vdict d =>
      let prevResult := dictGetD d "result" (.vstr "")
      if pyTruthy prevResult then
        .ok (prompt ++ "\n\n이전 작업 결과:\n" ++ pyStr prevResult)
      else .ok prompt
    | other =>
      .error ("\x27" ++ pyTypeName other ++ "\x27 object has no attribute \x27get\x27")

def substituteVars (context : PyDict) (prompt : String) : String :=
  context.foldl
    (fun p kv =>
      match kv.2 with
      | .vstr v => pyReplace p ("\x7b\x7b" ++ kv.1 ++ "\x7d\x7d") v
      | _ => p)
    prompt

def resolvePrompt (step : WorkflowStep) (context : PyDict) :
    Except String (Option String) :=
  match step.prompt with
  | none => .ok none
  | some p =>
    if p = "" then .ok none
    else
      match resolveInputPart step context p with
      | .error e => .error e
      | .ok p2 => .ok (some (substituteVars context p2))

/-- The retry loop of `WorkflowEngine._execute_agent_step` (lines 212-258):
`retries` counts the raised attempts so far; a returned result (success or
not) ends the loop; a raised exception is retried while
`retries <= retry_count`; exhaustion yields the skipped result under the
`skip` policy, else the failed result, both with `retries = attempts - 1`.
The first argument is the remaining number of permitted attempts. -/
def retryGo (oracle : Oracle) (agentName prompt : String) (context : PyDict)
    (stepName : String) (onFailure : OnFailure) :
    Nat → Nat → Option String → StepResult
  | 0, retries, lastError =>
    if onFailure = .skip then
      { name := stepName, agent := some agentName, skipped := true,
        error := lastError, retries := retries - 1 }
    else
      { name := stepName, agent := some agentName,
        error := lastError, retries := retries - 1 }
  | remaining + 1, retries, _lastError =>
    match oracle agentName prompt context retries with
    | .returns success result error cost dur =>
      { name := stepName, agent := some agentName, success := success,
        result := some result, error := error,
        costUsd := cost, durationMs := dur, retries := retries }
    | .raises e =>
      retryGo oracle agentName prompt context stepName onFailure
        remaining (retries + 1) (some e)

/-- `WorkflowEngine._execute_agent_step` (lines 195-258). A raised
exception out of prompt resolution is uncaught there and propagates
(`Except.error`); everything past that point returns a `StepResult`. -/
def execAgentStep (oracle : Oracle) (step : WorkflowStep) (context : PyDict) :
    Except String StepResult :=
  if optFalsy step.agent then
    .ok { name := step.name, error := some "agent 미지정" }
  else
    match resolvePrompt step context with
    | .error e => .error e
    | .ok resolved =>
      if optFalsy resolved then
        .ok { name := step.name, error := some "prompt 미지정" }
      else
        .ok (retryGo oracle (step.agent.getD "") (resolved.getD "") context
              step.name step.onFailure (step.retryCount + 1) 0 none)

/-- The aggregation loop of `WorkflowEngine._execute_parallel_step` (lines
286-318) over the gathered per-sub-step outcomes
(`asyncio.gather(..., return_exceptions=True)` hands back either a
`StepResult` or the exception object, in declaration order). Exceptions
add their message to the error list; results are appended to the shared
step list and context, and contribute cost (sum) and duration (max); a
non-skipped failure adds its truthy error message. -/
structure ParAccum where
  totalCost : ℚ
  totalDuration : Nat
  allSuccess : Bool
  errors : List String
  state : WfState

def parFold (acc : ParAccum) (outcome : Except String StepResult) : ParAccum :=
  match outcome with
  | .error e =>
    { acc with allSuccess := false, errors := acc.errors ++ [e] }
  | .ok r =>
    let st := acc.state
    let st2 : WfState :=
      { steps := st.steps ++ [r],
        context := dictSet st.context ("steps." ++ r.name) (stepDict r) }
    let failed := ¬ r.success ∧ ¬ r.skipped
    { totalCost := acc.totalCost + r.costUsd,
      totalDuration := max acc.totalDuration r.durationMs,
      allSuccess := if failed then false else acc.allSuccess,
      errors :=
        if failed ∧ r.error.getD "" ≠ "" then acc.errors ++ [r.error.getD ""]
        else acc.errors,
      state := st2 }

def aggregateParallel (stepName : String)
    (outcomes : List (Except String StepResult)) (st : WfState) :
    StepResult × WfState :=
  let acc := outcomes.foldl parFold
    { totalCost := 0, totalDuration := 0, allSuccess := true, errors := [], state := st }
  ({ name := stepName, success := acc.allSuccess,
     costUsd := acc.totalCost, durationMs := acc.totalDuration,
     error :=
       if acc.errors.isEmpty then none
       else some (String.intercalate "; " acc.errors) },
   acc.state)

/-- `WorkflowEngine._execute_step` (lines 171-193) with its three recursive
branches (`_execute_agent_step`, `_execute_parallel_step`,
`_execute_condition_step`). The fuel decreases on every recursive descent
— the conditional branch can target any step of the manifest, including
itself, so Python's recursion budget is the honest termination bound;
exhausted fuel is the interpreter raising. Parallel sub-steps are gathered
over the single-threaded event loop and their results appended in
declaration order; the model threads them sequentially in that order. -/
def execStep (oracle : Oracle) (mf : WorkflowManifest) :
    Nat → WorkflowStep → WfState → Except String StepResult × WfState
  | 0, _, st => (.error "maximum recursion depth exceeded", st)
  | fuel + 1, step, st =>
    match step.type with
    | .agent => (execAgentStep oracle step st.context, st)
    | .parallel =>
      if step.steps.isEmpty then
        (.ok { name := step.name, success := true, skipped := true }, st)
      else
        let gathered := step.steps.foldl
          (fun (acc : List (Except String StepResult) × WfState) sub =>
            let (r, st2) := execStep oracle mf fuel sub acc.2
            (acc.1 ++ [r], st2))
          ([], st)
        let (r, st2) := aggregateParallel step.name gathered.1 gathered.2
        (.ok r, st2)
    | .condition =>
      if optFalsy step.condition then
        (.ok { name := step.name, error := some "condition 미지정" }, st)
      else
        let conditionResult :=
          evaluateCondition (step.condition.getD "") st.context
        let target := if conditionResult then step.ifTrue else step.ifFalse
        if optFalsy target then
          (.ok { name := step.name, success := true, skipped := true }, st)
        else
          match findStep (fuel + 1) (target.getD "") mf.steps with
          | none =>
            (.ok { name := step.name,
                   error := some ("조건 분기 대상 스텝 \x27" ++ target.getD ""
                     ++ "\x27 미발견") }, st)
          | some targetStep => execStep oracle mf fuel targetStep st

/-- The per-step tail of the `run` loop (lines 123-149): append the step
result, accumulate the running totals, merge the `steps.<name>` entry into
the shared context, then stop on an exceeded ceiling or on a non-skipped
failure under the `stop` policy. Alongside the final `WorkflowResult`
accumulator the loop returns the list of per-iteration top-level step
results (the values of `step_result` across iterations), which the
invariant theorems quantify over. -/
def runLoop (oracle : Oracle) (mf : WorkflowManifest) (fuel : Nat) :
    List WorkflowStep → WorkflowResult → WorkflowResult × List StepResult
  | [], wf => (wf, [])
  | step :: rest, wf =>
    let (out, st2) :=
      execStep oracle mf fuel step { steps := wf.steps, context := wf.context }
    match out with
    | .error e =>
      ({ wf with steps := st2.steps, context := st2.context,
                 error := some e, success := false }, [])
    | .ok stepResult =>
      let wf2 : WorkflowResult :=
        { wf with
          steps := st2.steps ++ [stepResult],
          totalCostUsd := wf.totalCostUsd + stepResult.costUsd,
          totalDurationMs := wf.totalDurationMs + stepResult.durationMs,
          context := dictSet st2.context ("steps." ++ step.name)
            (stepDict stepResult) }
      if checkLimits mf wf2 then
        ({ wf2 with error := some "비용 또는 시간 상한 초과" }, [stepResult])
      else if ¬ stepResult.success ∧ ¬ stepResult.skipped
          ∧ step.onFailure = .stop then
        ({ wf2 with
           error := some ("스텝 \x27" ++ step.name ++ "\x27 실패로 워크플로우 중단") },
         [stepResult])
      else
        let (wfF, trace) := runLoop oracle mf fuel rest wf2
        (wfF, stepResult :: trace)

/-- `WorkflowEngine.run` (lines 96-169) together with the per-iteration
trace: seed the shared context from the manifest overlaid by the initial
context, execute the top-level steps, set `success` to `error is None`
(an escaped exception sets `error`, so the same formula covers the
`except` branch), and finally overwrite `total_duration_ms` with the
measured wall-clock elapsed milliseconds (lines 158-159). `elapsedMs` is
that measurement, an environment input. -/
def runWithTrace (oracle : Oracle) (mf : WorkflowManifest) (fuel : Nat)
    (initialContext : PyDict) (elapsedMs : Nat) :
    WorkflowResult × List StepResult :=
  let seeded := initialContext.foldl (fun d kv => dictSet d kv.1 kv.2) mf.context
  let wf0 : WorkflowResult := { workflowName := mf.name, context := seeded }
  let (wf1, trace) := runLoop oracle mf fuel mf.steps wf0
  ({ wf1 with success := wf1.error = none, totalDurationMs := elapsedMs }, trace)

/-- `WorkflowEngine.run`: just the workflow result. -/
def runWorkflow (oracle : Oracle) (mf : WorkflowManifest) (fuel : Nat)
    (initialContext : PyDict) (elapsedMs : Nat) : WorkflowResult :=
  (runWithTrace oracle mf fuel initialContext elapsedMs).1

/-! ## Theorems -/

/-! ### Event pipeline -/

/-- The invocation trace of one dispatch walk is exactly the matching
handlers, in list order, whatever the handler bodies return or raise. -/
theorem applyGo_invoked (eventType : String) :
    ∀ (t : List AspectHandler) (ctx : AspectCtx),
      (applyGo eventType t ctx).invoked
        = (t.filter (fun h => matchesHandler h eventType ctx.agentName)).map
            AspectHandler.name := by
  intro t
  induction t with
  | nil => intro ctx; rfl
  | cons h t ih =>
    intro ctx
    simp only [applyGo, List.filter_cons]
    cases hm : matchesHandler h eventType ctx.agentName with
    | true =>
      simp only [hm, if_true]
      cases hr : h.run eventType ctx with
      | ok payload2 => simp [hr, ih]
      | error e => simp [hr, ih]
    | false => simp [hm, ih]

/-- C2: on every event dispatch, a matching handler that raises is caught
and logged and never prevents later matching handlers from running: the
invocation trace of `apply` is exactly the full matching sublist, in
order, independently of which handler bodies raise; and `applyEngine` is a
total function, so the dispatch always returns normally to its caller. -/
theorem dispatch_invokes_all_matching_handlers
    (hs : List AspectHandler) (eventType : String) (ctx : AspectCtx) :
    (applyEngine hs eventType ctx).invoked
      = (hs.filter (fun h => matchesHandler h eventType ctx.agentName)).map
          AspectHandler.name := by
  unfold applyEngine
  exact applyGo_invoked eventType hs { ctx with eventType := eventType }

/-- Membership in a stable insertion. -/
theorem mem_ordInsert (a x : AspectHandler) :
    ∀ (l : List AspectHandler), x ∈ ordInsert a l ↔ x = a ∨ x ∈ l := by
  intro l
  induction l with
  | nil => simp [ordInsert]
  | cons b t ih =>
    simp only [ordInsert]
    by_cases hab : a.order ≤ b.order
    · simp [hab]
    · simp only [if_neg hab, List.mem_cons, ih]
      tauto

/-- Stable insertion preserves ascending order by `order`. -/
theorem pairwise_ordInsert (a : AspectHandler) :
    ∀ (l : List AspectHandler),
      l.Pairwise (fun x y => x.order ≤ y.order) →
      (ordInsert a l).Pairwise (fun x y => x.order ≤ y.order) := by
  intro l
  induction l with
  | nil => intro _; simp [ordInsert]
  | cons b t ih =>
    intro hl
    rw [List.pairwise_cons] at hl
    simp only [ordInsert]
    by_cases hab : a.order ≤ b.order
    · rw [if_pos hab, List.pairwise_cons]
      refine ⟨?_, List.pairwise_cons.2 hl⟩
      intro x hx
      rcases List.mem_cons.1 hx with hx | hx
      · exact hx ▸ hab
      · exact le_trans hab (hl.1 x hx)
    · rw [if_neg hab, List.pairwise_cons]
      refine ⟨?_, ih hl.2⟩
      intro x hx
      rcases (mem_ordInsert a x t).1 hx with hx | hx
      · exact hx ▸ le_of_lt (lt_of_not_le hab)
      · exact hl.1 x hx

/-- The model of Python list.sort produces an ascending list. -/
theorem pairwise_pySort :
    ∀ (l : List AspectHandler),
      (pySortByOrder l).Pairwise (fun x y => x.order ≤ y.order) := by
  intro l
  induction l with
  | nil => simp [pySortByOrder]
  | cons a t ih => exact pairwise_ordInsert a (pySortByOrder t) ih

/-- Handlers carrying one given order number. -/
def hasOrder (k : Int) (h : AspectHandler) : Bool := h.order == k

/-- Stable insertion keeps the sublist of any fixed order number intact,
with the inserted element in front exactly when it carries that order. -/
theorem filter_ordInsert (a : AspectHandler) (k : Int) :
    ∀ (l : List AspectHandler),
      (ordInsert a l).filter (hasOrder k)
        = if hasOrder k a then a :: l.filter (hasOrder k)
          else l.filter (hasOrder k) := by
  intro l
  induction l with
  | nil => by_cases hak : hasOrder k a <;> simp [ordInsert, List.filter_cons, hak]
  | cons b t ih =>
    simp only [ordInsert]
    by_cases hab : a.order ≤ b.order
    · rw [if_pos hab]
      by_cases hak : hasOrder k a
      · simp [List.filter_cons, hak]
      · simp [List.filter_cons, hak]
    · rw [if_neg hab]
      by_cases hak : hasOrder k a
      · have hbk : hasOrder k b = false := by
          simp only [hasOrder, beq_iff_eq] at hak
          simp only [hasOrder, beq_eq_false_iff_ne]
          omega
        simp [List.filter_cons, hbk, ih, hak]
      · simp [List.filter_cons, ih, hak]

/-- Stability of the Python sort model: for every order number, the
sublist of handlers carrying it is untouched by sorting. -/
theorem filter_pySort (k : Int) :
    ∀ (l : List AspectHandler),
      (pySortByOrder l).filter (hasOrder k) = l.filter (hasOrder k) := by
  intro l
  induction l with
  | nil => rfl
  | cons a t ih =>
    simp only [pySortByOrder, filter_ordInsert, List.filter_cons, ih]

/-- Any registration sequence leaves the engine's handler list ascending. -/
theorem registerFold_pairwise :
    ∀ (regs init : List AspectHandler),
      init.Pairwise (fun x y => x.order ≤ y.order) →
      (regs.foldl registerHandler init).Pairwise (fun x y => x.order ≤ y.order) := by
  intro regs
  induction regs with
  | nil => intro init h; exact h
  | cons r t ih =>
    intro init _
    exact ih (registerHandler init r) (pairwise_pySort (init ++ [r]))

/-- Any registration sequence keeps, for each order number, the handlers
carrying it in registration order. -/
theorem registerFold_filter (k : Int) :
    ∀ (regs init : List AspectHandler),
      (regs.foldl registerHandler init).filter (hasOrder k)
        = init.filter (hasOrder k) ++ regs.filter (hasOrder k) := by
  intro regs
  induction regs with
  | nil => intro init; simp
  | cons r t ih =>
    intro init
    simp only [List.foldl_cons, ih, registerHandler, filter_pySort,
      List.filter_append, List.filter_cons]
    by_cases hrk : hasOrder k r
    · simp [hrk]
    · simp [hrk]

/-- A do-nothing handler for the order scenario of the specification. -/
def demoHandler (name : String) (order : Int) : AspectHandler :=
  { name := name, order := order, events := [], targetAgents := [],
    run := fun _ ctx => .ok ctx.payload }

/-- C8: after any sequence of registrations, dispatch invokes exactly the
matching handlers in list order, the list is ascending by order number,
and the handlers of each fixed order number stay in registration order
(stability of the re-sort on every registration); registering orders
100, 10, 50 yields the dispatch order 10, 50, 100. -/
theorem dispatch_order_ascending_stable :
    (∀ (regs : List AspectHandler) (eventType : String) (ctx : AspectCtx),
      (applyEngine (registerAll regs) eventType ctx).invoked
        = ((registerAll regs).filter
            (fun h => matchesHandler h eventType ctx.agentName)).map
            AspectHandler.name
      ∧ ((registerAll regs).filter
          (fun h => matchesHandler h eventType ctx.agentName)).Pairwise
          (fun x y => x.order ≤ y.order))
    ∧ (∀ (regs : List AspectHandler) (k : Int),
        (registerAll regs).filter (hasOrder k) = regs.filter (hasOrder k))
    ∧ (applyEngine
        (registerAll [demoHandler "a" 100, demoHandler "b" 10, demoHandler "c" 50])
        "PreQuery" { agentName := "x" }).invoked = ["b", "c", "a"] := by
  refine ⟨?_, ?_, ?_⟩
  · intro regs eventType ctx
    refine ⟨?_, ?_⟩
    · unfold applyEngine
      exact applyGo_invoked eventType (registerAll regs)
        { ctx with eventType := eventType }
    · exact (registerFold_pairwise regs [] (by simp)).filter _
  · intro regs k
    simpa using registerFold_filter k regs []
  · rfl

/-! ### Lifecycle coordinator -/

/-- C9: for every (source, target) pair not in the transition table,
`transition` fails with the InvalidTransition `ValueError`, and because the
check precedes every mutation, the manager state (hence the history) and
the handle are returned unchanged: no record is appended and the status is
untouched. -/
theorem invalid_transition_rejected
    (st : ManagerState) (a : AgentInstance) (tgt : AgentStatus)
    (err : Option String) (h : tgt ∉ validTransitions a.status) :
    transition st a tgt err = (st, a, .error (invalidTransitionMsg a tgt)) := by
  unfold transition
  rw [if_neg h]

/-- A REGISTERED agent instance for the scenario runs. -/
def regAgent : AgentInstance := { name := "a1" }

/-- Witness for `invalid_transition_rejected`: REGISTERED → EXECUTING is
rejected and the handle stays REGISTERED with no record appended. -/
theorem invalid_transition_rejected_witness :
    AgentStatus.executing ∉ validTransitions regAgent.status
    ∧ transition {} regAgent AgentStatus.executing none
        = ({}, regAgent, .error (invalidTransitionMsg regAgent AgentStatus.executing)) :=
  ⟨by decide, invalid_transition_rejected {} regAgent AgentStatus.executing none (by decide)⟩

/-- C5 (amended): every status change performed through
`LifecycleManager.transition` is a pair allowed by the transition table,
and the appended record carries exactly that pair. (The original claim
fails for the direct status writes of `execute` and `shutdown`; see the
counterexample.) -/
theorem manager_transition_respects_table
    (st : ManagerState) (a : AgentInstance) (tgt : AgentStatus)
    (err : Option String) (st2 : ManagerState) (a2 : AgentInstance)
    (ev : LifecycleEvent)
    (h : transition st a tgt err = (st2, a2, .ok ev)) :
    tgt ∈ validTransitions a.status ∧ a2.status = tgt
      ∧ ev.oldStatus = a.status ∧ ev.newStatus = tgt := by
  unfold transition at h
  by_cases hmem : tgt ∈ validTransitions a.status
  · rw [if_pos hmem] at h
    refine ⟨hmem, ?_, ?_, ?_⟩
    · have := congrArg (fun p => p.2.1.status) h
      simpa using this.symm
    · have := congrArg (fun p => p.2.2) h
      simp only at this
      cases this
      rfl
    · have := congrArg (fun p => p.2.2) h
      simp only at this
      cases this
      rfl
  · rw [if_neg hmem] at h
    have := congrArg (fun p => p.2.2) h
    simp at this

/-- The history record of the witness transition. -/
def regEvent : LifecycleEvent :=
  { agentName := "a1", oldStatus := .registered, newStatus := .initializing }

/-- Witness for `manager_transition_respects_table`: the successful
REGISTERED → INITIALIZING transition is in the table and recorded as that
pair. -/
theorem manager_transition_respects_table_witness :
    transition {} regAgent AgentStatus.initializing none
      = ({ events := [regEvent] }, { regAgent with status := .initializing }, .ok regEvent)
    ∧ (AgentStatus.initializing ∈ validTransitions regAgent.status
        ∧ ({ regAgent with status := .initializing } : AgentInstance).status
            = AgentStatus.initializing
        ∧ regEvent.oldStatus = regAgent.status
        ∧ regEvent.newStatus = AgentStatus.initializing) :=
  ⟨rfl, manager_transition_respects_table {} regAgent AgentStatus.initializing none
    _ _ _ rfl⟩

/-! ### Execution tracker -/

/-- A READY agent instance with a bound runtime. -/
def readyAgent : AgentInstance :=
  { name := "w1", status := .ready, runtimeBound := true }

/-- Counterexample to C5 as stated: context shutdown leaves the handle
DESTROYED, and a subsequent synchronous execute writes EXECUTING straight
into the status field (context.py line 226 has no table check), a status
change whose (source, target) pair DESTROYED → EXECUTING is not allowed by
the transition table — the handle leaves DESTROYED and enters EXECUTING
from a state other than READY. -/
theorem destroyed_handle_reenters_executing :
    ctxShutdown [readyAgent] (fun _ => false)
        = [{ readyAgent with status := .destroyed }]
    ∧ (ctxExecute { readyAgent with status := .destroyed } (.raises "boom")
        none "sess_1" "tx_001" "exec_1").statusTrace = [.executing]
    ∧ (ctxExecute { readyAgent with status := .destroyed } (.raises "boom")
        none "sess_1" "tx_001" "exec_1").handle.status = .executing
    ∧ AgentStatus.executing ∉ validTransitions AgentStatus.destroyed :=
  ⟨rfl, rfl, rfl, by decide⟩

/-- Counterexample to C3 as stated: when the runtime call raises, the
handle is left in EXECUTING — it is not set to ERROR. -/
theorem execute_raise_not_error :
    (ctxExecute readyAgent (.raises "boom") none "sess_1" "tx_001" "exec_1").handle.status
        = .executing
    ∧ ¬ ((ctxExecute readyAgent (.raises "boom") none "sess_1" "tx_001"
          "exec_1").handle.status = .error) :=
  ⟨rfl, by decide⟩

/-- C3 (amended): for a synchronous execution of a known, non-LAZY agent
with a bound runtime, the status is assigned EXECUTING before the runtime
call; if the call returns, the status is assigned back to READY and the
cumulative counters are updated with that invocation's values and the
result dictionary is returned; if the call raises, the exception
propagates, the status remains EXECUTING and the counters are unchanged
(context.py lines 226-266 have no `try`/`except` and no ERROR branch). -/
theorem execute_status_and_counters
    (a : AgentInstance) (outcome : RuntimeOutcome) (sid tid eid : String)
    (hlazy : a.status ≠ .lazy) (hrt : a.runtimeBound = true) :
    (ctxExecute a outcome none sid tid eid).statusTrace.head? = some .executing
    ∧ (∀ resp err cost dur model,
        outcome = .returns resp err cost dur model →
        (ctxExecute a outcome none sid tid eid).handle.status = .ready
        ∧ (ctxExecute a outcome none sid tid eid).handle.queryCount = a.queryCount + 1
        ∧ (ctxExecute a outcome none sid tid eid).handle.totalCostUsd
            = a.totalCostUsd + cost
        ∧ (ctxExecute a outcome none sid tid eid).handle.totalDurationMs
            = a.totalDurationMs + dur
        ∧ (ctxExecute a outcome none sid tid eid).ret
            = .ok { executionId := eid, sessionId := sid, txId := tid,
                    agent := a.name, result := resp, success := err = none,
                    error := err, costUsd := cost, durationMs := dur,
                    model := model })
    ∧ (∀ e, outcome = .raises e →
        (ctxExecute a outcome none sid tid eid).handle.status = .executing
        ∧ (ctxExecute a outcome none sid tid eid).handle.queryCount = a.queryCount
        ∧ (ctxExecute a outcome none sid tid eid).handle.totalCostUsd = a.totalCostUsd
        ∧ (ctxExecute a outcome none sid tid eid).handle.totalDurationMs
            = a.totalDurationMs
        ∧ (ctxExecute a outcome none sid tid eid).ret = .error e) := by
  have hnb : ¬ (a.runtimeBound = false) := by simp [hrt]
  unfold ctxExecute
  rw [if_neg hlazy, if_neg hnb]
  refine ⟨?_, ?_, ?_⟩
  · cases outcome <;> rfl
  · intro resp err cost dur model hout
    subst hout
    exact ⟨rfl, rfl, rfl, rfl, rfl⟩
  · intro e hout
    subst hout
    exact ⟨rfl, rfl, rfl, rfl, rfl⟩

/-- Witness for `execute_status_and_counters` at a returning call on a
READY bound handle. -/
theorem execute_status_and_counters_witness :
    readyAgent.status ≠ .lazy ∧ readyAgent.runtimeBound = true
    ∧ ((ctxExecute readyAgent (.returns "done" none 1 5 "m1") none "s" "t"
          "e").statusTrace.head? = some .executing
        ∧ (ctxExecute readyAgent (.returns "done" none 1 5 "m1") none "s" "t"
            "e").handle.status = .ready) := by
  have h := execute_status_and_counters readyAgent
    (.returns "done" none 1 5 "m1") "s" "t" "e" (by decide) rfl
  exact ⟨by decide, rfl, h.1, (h.2.1 "done" none 1 5 "m1" rfl).1⟩

/-! ### Async cancel accessor -/

/-- C6: a cancel call on an unknown execution id fails with NotFound; on a
record still `running` it cancels the background task, marks the record
`cancelled` and returns true; on an already-terminal record it returns
false, cancels nothing and leaves the table unchanged. (The accessor
itself is modelled from the specification; the DELETE endpoint in
`aac/server/app.py` maps these outcomes onto 404 / "cancelled" /
"not_cancellable".) -/
theorem cancel_execution_cases (t : ExecTable) (execId : String) :
    (execLookup t execId = none →
      cancel_execution t execId
        = { ret := .error ("Execution \x27" ++ execId ++ "\x27 not found"),
            table := t, cancelledTasks := [] }
      ∧ cancelEndpoint t execId = (404, "", t))
    ∧ (∀ r, execLookup t execId = some r → r.status = "running" →
        cancel_execution t execId
          = { ret := .ok true,
              table := execSet t execId { r with status := "cancelled" },
              cancelledTasks := [execId] })
    ∧ (∀ r, execLookup t execId = some r → r.status ≠ "running" →
        cancel_execution t execId
          = { ret := .ok false, table := t, cancelledTasks := [] }) := by
  refine ⟨?_, ?_, ?_⟩
  · intro hn
    constructor
    · unfold cancel_execution
      rw [hn]
    · unfold cancelEndpoint get_execution
      rw [hn]
  · intro r hr hrun
    unfold cancel_execution
    rw [hr]
    simp [hrun]
  · intro r hr hrun
    unfold cancel_execution
    rw [hr]
    simp [hrun]

/-- A table with one running and one completed execution record. -/
def demoExecTable : ExecTable :=
  [("e1", { executionId := "e1", agent := "w1", status := "running" }),
   ("e2", { executionId := "e2", agent := "w1", status := "completed" })]

/-- Witness for `cancel_execution_cases`, all three branches discharged on
`demoExecTable`: an unknown id is NotFound, cancelling `e1` flips it to
`cancelled` and returns true, cancelling the completed `e2` returns false
and changes nothing. -/
theorem cancel_execution_cases_witness :
    (execLookup demoExecTable "nope" = none
      ∧ cancel_execution demoExecTable "nope"
          = { ret := .error ("Execution \x27nope\x27 not found"),
              table := demoExecTable, cancelledTasks := [] })
    ∧ (execLookup demoExecTable "e1"
          = some { executionId := "e1", agent := "w1", status := "running" }
        ∧ cancel_execution demoExecTable "e1"
            = { ret := .ok true,
                table := execSet demoExecTable "e1"
                  { executionId := "e1", agent := "w1", status := "cancelled" },
                cancelledTasks := ["e1"] })
    ∧ (execLookup demoExecTable "e2"
          = some { executionId := "e2", agent := "w1", status := "completed" }
        ∧ cancel_execution demoExecTable "e2"
            = { ret := .ok false, table := demoExecTable, cancelledTasks := [] }) :=
  ⟨⟨by decide, ((cancel_execution_cases demoExecTable "nope").1 (by decide)).1⟩,
   ⟨by decide, (cancel_execution_cases demoExecTable "e1").2.1
      { executionId := "e1", agent := "w1", status := "running" } (by decide) rfl⟩,
   ⟨by decide, (cancel_execution_cases demoExecTable "e2").2.2
      { executionId := "e2", agent := "w1", status := "completed" } (by decide)
      (by decide)⟩⟩

/-! ### Workflow interpreter: parallel aggregation -/

/-- The successfully returned sub-results of a gathered outcome list, in
declaration order (specification artifact for stating the aggregation
theorems). -/
def okOf : Except String StepResult → Option StepResult
  | .ok r => some r
  | .error _ => none

/-- Whether one gathered outcome counts as successful-or-skipped for the
parallel group's success flag. -/
def subOk : Except String StepResult → Bool
  | .error _ => false
  | .ok r => r.success || r.skipped

/-- The error strings the aggregation collects, in outcome order:
exception messages, and the truthy error of every non-skipped failed
sub-result (specification artifact mirroring engine.py lines 292-303). -/
def parErrors : List (Except String StepResult) → List String
  | [] => []
  | .error e :: t => e :: parErrors t
  | .ok r :: t =>
    if (¬ r.success ∧ ¬ r.skipped) ∧ r.error.getD "" ≠ "" then
      r.error.getD "" :: parErrors t
    else parErrors t

theorem parFold_cost :
    ∀ (outs : List (Except String StepResult)) (acc : ParAccum),
      (outs.foldl parFold acc).totalCost
        = acc.totalCost + ((outs.filterMap okOf).map StepResult.costUsd).sum := by
  intro outs
  induction outs with
  | nil => intro acc; simp
  | cons o t ih =>
    intro acc
    cases o with
    | error e => simp [parFold, okOf, ih]
    | ok r =>
      simp only [List.foldl_cons, List.filterMap_cons, okOf, parFold, ih,
        List.map_cons, List.sum_cons]
      ring

theorem parFold_duration :
    ∀ (outs : List (Except String StepResult)) (acc : ParAccum),
      (outs.foldl parFold acc).totalDuration
        = (outs.filterMap okOf).foldl (fun m r => max m r.durationMs)
            acc.totalDuration := by
  intro outs
  induction outs with
  | nil => intro acc; simp
  | cons o t ih =>
    intro acc
    cases o with
    | error e => simp [parFold, okOf, ih]
    | ok r => simp [parFold, okOf, ih]

theorem parFold_steps :
    ∀ (outs : List (Except String StepResult)) (acc : ParAccum),
      (outs.foldl parFold acc).state.steps
        = acc.state.steps ++ outs.filterMap okOf := by
  intro outs
  induction outs with
  | nil => intro acc; simp
  | cons o t ih =>
    intro acc
    cases o with
    | error e => simp [parFold, okOf, ih]
    | ok r => simp [parFold, okOf, ih]

theorem parFold_errors :
    ∀ (outs : List (Except String StepResult)) (acc : ParAccum),
      (outs.foldl parFold acc).errors = acc.errors ++ parErrors outs := by
  intro outs
  induction outs with
  | nil => intro acc; simp [parErrors]
  | cons o t ih =>
    intro acc
    cases o with
    | error e => simp [parFold, parErrors, ih]
    | ok r =>
      simp only [List.foldl_cons, parFold, parErrors, ih]
      split_ifs <;> simp

theorem parFold_success :
    ∀ (outs : List (Except String StepResult)) (acc : ParAccum),
      (outs.foldl parFold acc).allSuccess = (acc.allSuccess && outs.all subOk) := by
  intro outs
  induction outs with
  | nil => intro acc; simp
  | cons o t ih =>
    intro acc
    cases o with
    | error e => simp [parFold, subOk, ih]
    | ok r =>
      cases hs : r.success with
      | true => simp [parFold, subOk, ih, hs]
      | false =>
        cases hk : r.skipped with
        | true => simp [parFold, subOk, ih, hs, hk]
        | false => simp [parFold, subOk, ih, hs, hk]

/-- An exception message among the gathered outcomes always appears in the
collected error list. -/
theorem parErrors_mem (e : String) :
    ∀ (outs : List (Except String StepResult)),
      Except.error e ∈ outs → e ∈ parErrors outs := by
  intro outs
  induction outs with
  | nil => intro h; cases h
  | cons o t ih =>
    intro h
    rcases List.mem_cons.1 h with heq | htail
    · rw [← heq]
      simp [parErrors]
    · cases o with
      | error e2 => simp [parErrors, ih htail]
      | ok r =>
        simp only [parErrors]
        split
        · exact List.mem_cons_of_mem _ (ih htail)
        · exact ih htail

/-- C10: a sub-step of a parallel group whose execution raises contributes
no entry to the workflow's step-result list and nothing to the group's
aggregated cost (a sum over the returned sub-results) or duration (a max
over them); the group's success is false and its error is the `"; "`-join
of the collected error strings, among which that exception's message
appears. -/
theorem parallel_exception_isolation
    (stepName : String) (outs : List (Except String StepResult)) (st : WfState)
    (e : String) (he : Except.error e ∈ outs) :
    (aggregateParallel stepName outs st).2.steps
        = st.steps ++ outs.filterMap okOf
    ∧ (aggregateParallel stepName outs st).1.costUsd
        = ((outs.filterMap okOf).map StepResult.costUsd).sum
    ∧ (aggregateParallel stepName outs st).1.durationMs
        = (outs.filterMap okOf).foldl (fun m r => max m r.durationMs) 0
    ∧ (aggregateParallel stepName outs st).1.success = false
    ∧ e ∈ parErrors outs
    ∧ (aggregateParallel stepName outs st).1.error
        = some (String.intercalate "; " (parErrors outs)) := by
  have hmem : e ∈ parErrors outs := parErrors_mem e outs he
  have hne : parErrors outs ≠ [] := by
    intro hnil
    rw [hnil] at hmem
    cases hmem
  refine ⟨?_, ?_, ?_, ?_, hmem, ?_⟩
  · simp [aggregateParallel, parFold_steps]
  · simp [aggregateParallel, parFold_cost]
  · simp [aggregateParallel, parFold_duration]
  · have hall : outs.all subOk = false := by
      rw [List.all_eq_false]
      exact ⟨Except.error e, he, by simp [subOk]⟩
    simp [aggregateParallel, parFold_success, hall]
  · have hemp : (parErrors outs).isEmpty = false := by
      cases hpe : parErrors outs with
      | nil => exact absurd hpe hne
      | cons a l => rfl
    simp [aggregateParallel, parFold_errors, hemp]

/-- A returned sub-result for the C10 witness. -/
def okSub : StepResult :=
  { name := "p1", success := true, result := some "OK" }

/-- The gathered outcomes of the C10 witness: one returned sub-result and
one raised exception. -/
def demoOuts : List (Except String StepResult) := [.ok okSub, .error "boom"]

/-- Witness for `parallel_exception_isolation` on a concrete gather of one
returned sub-result and one raised exception. -/
theorem parallel_exception_isolation_witness :
    Except.error "boom" ∈ demoOuts
    ∧ ((aggregateParallel "par" demoOuts ⟨[], []⟩).2.steps
          = [] ++ demoOuts.filterMap okOf
        ∧ (aggregateParallel "par" demoOuts ⟨[], []⟩).1.costUsd
            = ((demoOuts.filterMap okOf).map StepResult.costUsd).sum
        ∧ (aggregateParallel "par" demoOuts ⟨[], []⟩).1.durationMs
            = (demoOuts.filterMap okOf).foldl (fun m r => max m r.durationMs) 0
        ∧ (aggregateParallel "par" demoOuts ⟨[], []⟩).1.success = false
        ∧ "boom" ∈ parErrors demoOuts
        ∧ (aggregateParallel "par" demoOuts ⟨[], []⟩).1.error
            = some (String.intercalate "; " (parErrors demoOuts))) :=
  ⟨by simp [demoOuts],
   parallel_exception_isolation "par" demoOuts ⟨[], []⟩ "boom" (by simp [demoOuts])⟩

/-! ### Workflow interpreter: totals -/

/-- The running cost total accumulated by the `run` loop is the exact sum
of the per-iteration top-level step results' costs. -/
theorem runLoop_cost (oracle : Oracle) (mf : WorkflowManifest) (fuel : Nat) :
    ∀ (steps : List WorkflowStep) (wf : WorkflowResult),
      (runLoop oracle mf fuel steps wf).1.totalCostUsd
        = wf.totalCostUsd
          + ((runLoop oracle mf fuel steps wf).2.map StepResult.costUsd).sum := by
  intro steps
  induction steps with
  | nil => intro wf; simp [runLoop]
  | cons step rest ih =>
    intro wf
    simp only [runLoop]
    rcases hx : execStep oracle mf fuel step { steps := wf.steps, context := wf.context }
      with ⟨out, st2⟩
    cases out with
    | error e => simp
    | ok r =>
      simp only
      split
      · simp
      · split
        · simp
        · rcases hr : runLoop oracle mf fuel rest
            { wf with
              steps := st2.steps ++ [r],
              totalCostUsd := wf.totalCostUsd + r.costUsd,
              totalDurationMs := wf.totalDurationMs + r.durationMs,
              context := dictSet st2.context ("steps." ++ step.name) (stepDict r) }
            with ⟨wfF, tr⟩
          have := ih { wf with
              steps := st2.steps ++ [r],
              totalCostUsd := wf.totalCostUsd + r.costUsd,
              totalDurationMs := wf.totalDurationMs + r.durationMs,
              context := dictSet st2.context ("steps." ++ step.name) (stepDict r) }
          rw [hr] at this
          simp only [List.map_cons, List.sum_cons]
          simp only at this
          rw [this]
          ring

/-- C1 (amended): for every workflow run, the total cost is the exact sum
of the per-iteration top-level step results' costs, where a parallel
group's own cost is the sum of its collected sub-results' costs and its
duration the max of their durations; the total duration of the returned
`WorkflowResult`, however, is the measured wall-clock elapsed time
written over the additive total at completion (engine.py lines 158-159),
not the sum of the step durations. -/
theorem workflow_totals (oracle : Oracle) (mf : WorkflowManifest) (fuel : Nat)
    (initialContext : PyDict) (elapsedMs : Nat) :
    (runWorkflow oracle mf fuel initialContext elapsedMs).totalCostUsd
      = (((runWithTrace oracle mf fuel initialContext elapsedMs).2).map
          StepResult.costUsd).sum
    ∧ (runWorkflow oracle mf fuel initialContext elapsedMs).totalDurationMs
        = elapsedMs
    ∧ (∀ (stepName : String) (outs : List (Except String StepResult)) (st : WfState),
        (aggregateParallel stepName outs st).1.costUsd
            = ((outs.filterMap okOf).map StepResult.costUsd).sum
        ∧ (aggregateParallel stepName outs st).1.durationMs
            = (outs.filterMap okOf).foldl (fun m r => max m r.durationMs) 0) := by
  refine ⟨?_, ?_, ?_⟩
  · unfold runWorkflow runWithTrace
    dsimp only
    rcases hr : runLoop oracle mf fuel mf.steps
        { workflowName := mf.name,
          context := initialContext.foldl (fun d kv => dictSet d kv.1 kv.2) mf.context }
      with ⟨wf1, tr⟩
    have h := runLoop_cost oracle mf fuel mf.steps
      { workflowName := mf.name,
        context := initialContext.foldl (fun d kv => dictSet d kv.1 kv.2) mf.context }
    rw [hr] at h
    simpa using h
  · unfold runWorkflow runWithTrace
    dsimp only
  · intro stepName outs st
    exact ⟨by simp [aggregateParallel, parFold_cost],
           by simp [aggregateParallel, parFold_duration]⟩

/-- A one-step manifest whose single agent step reports a 100 ms duration. -/
def oneStepMf : WorkflowManifest :=
  { name := "wf1", steps := [agentStep "s1" (some "w1") (some "p")] }

/-- An oracle that always returns successfully with zero cost and a 100 ms
duration. -/
def oracle100 : Oracle := fun _ _ _ _ => .returns true "OK" none 0 100

/-- Counterexample to C1 as stated: the completed workflow's total
duration is the wall-clock elapsed measurement (7 ms here), not the sum of
its constituent step results' durations (100 ms), because `run` overwrites
`total_duration_ms` with the elapsed time at completion. -/
theorem workflow_duration_not_sum :
    (runWorkflow oracle100 oneStepMf 10 [] 7).totalDurationMs = 7
    ∧ ((runWorkflow oracle100 oneStepMf 10 [] 7).steps.map
        StepResult.durationMs).sum = 100
    ∧ ¬ ((runWorkflow oracle100 oneStepMf 10 [] 7).totalDurationMs
          = ((runWorkflow oracle100 oneStepMf 10 [] 7).steps.map
              StepResult.durationMs).sum) :=
  ⟨rfl, rfl, by decide⟩

/-! ### Workflow interpreter: conditional steps -/

/-- A workflow where step `s1` succeeds and a conditional step tests
`steps.s1.success` with targets `t` (true) and `f` (false). -/
def condMf : WorkflowManifest :=
  { name := "wf-cond",
    steps := [agentStep "s1" (some "a") (some "p1"),
              conditionStep "cond1" (some "steps.s1.success") (some "t") (some "f"),
              agentStep "t" (some "a") (some "pt"),
              agentStep "f" (some "a") (some "pf")] }

/-- An oracle on which every agent call succeeds at zero cost. -/
def okOracle : Oracle := fun _ _ _ _ => .returns true "OK" none 0 10

/-- C4, evaluated at the failing input: in `condMf` the first step
succeeds — the shared context holds a `steps.s1` entry whose `success`
field is true — and yet the conditional `steps.s1.success` evaluates to
false and the engine executes the `if_false` target `f` (the per-iteration
trace is `s1`, then the conditional's returned result named `f`, then the
top-level `t` and `f`). The run loop stores results under the single flat
key `"steps.s1"` (engine.py line 132) while `_evaluate_condition` splits
the expression on dots and walks nested dictionaries (lines 393-405), so
the documented pattern `steps.step_name.success` can never be found. -/
theorem condition_flat_key_is_never_true :
    ((runWithTrace okOracle condMf 20 [] 0).2.map StepResult.name)
        = ["s1", "f", "t", "f"]
    ∧ ((runWithTrace okOracle condMf 20 [] 0).2.map StepResult.success)
        = [true, true, true, true]
    ∧ condWalk ["success"]
        (dictGet (runWorkflow okOracle condMf 20 [] 0).context "steps.s1") = true
    ∧ evaluateCondition "steps.s1.success"
        (runWorkflow okOracle condMf 20 [] 0).context = false := by
  refine ⟨rfl, rfl, rfl, rfl⟩

/-! ### Workflow interpreter: cost ceiling -/

/-- Three sequential agent steps under a $0.8 total-cost ceiling. -/
def ceilingMf : WorkflowManifest :=
  { name := "wf-ceiling",
    steps := [agentStep "s1" (some "a") (some "p1"),
              agentStep "s2" (some "b") (some "p2"),
              agentStep "s3" (some "c") (some "p3")],
    maxTotalCostUsd := some 0.8 }

/-- An oracle on which every agent call succeeds at a cost of $0.5. -/
def halfOracle : Oracle := fun _ _ _ _ => .returns true "OK" none 0.5 100

/-- The step result every step of the ceiling scenario produces. -/
def halfRes (nm ag : String) : StepResult :=
  { name := nm, agent := some ag, success := true, result := some "OK",
    error := none, costUsd := 0.5, durationMs := 100, retries := 0 }

/-- On `ceilingMf`, the ceiling check is exactly the strict comparison of
the running cost total against $0.8 (there is no duration ceiling). -/
theorem checkLimits_ceilingMf (wf : WorkflowResult) :
    checkLimits ceilingMf wf = (if wf.totalCostUsd > 0.8 then true else false) := by
  simp only [checkLimits, checkDurationLimit, ceilingMf]
  norm_num

/-- C7: with three sequential steps each costing $0.5 under a $0.8 cost
ceiling, the totals are checked after each top-level step and the strict
excess after the second step stops the workflow with the
ceiling-exceeded error: exactly the two completed step results are kept
(each successful at $0.5), the third step is never executed, and the
workflow's success is false. -/
theorem ceiling_halts_after_two_steps :
    (runWorkflow halfOracle ceilingMf 10 [] 250).success = false
    ∧ (runWorkflow halfOracle ceilingMf 10 [] 250).error
        = some "비용 또는 시간 상한 초과"
    ∧ ((runWorkflow halfOracle ceilingMf 10 [] 250).steps.map StepResult.name)
        = ["s1", "s2"]
    ∧ ((runWorkflow halfOracle ceilingMf 10 [] 250).steps.map StepResult.success)
        = [true, true]
    ∧ ((runWorkflow halfOracle ceilingMf 10 [] 250).steps.map StepResult.costUsd)
        = [0.5, 0.5] := by
  have e1 : execStep halfOracle ceilingMf 10 (agentStep "s1" (some "a") (some "p1"))
        { steps := [], context := [] }
      = (Except.ok (halfRes "s1" "a"), { steps := [], context := [] }) := rfl
  have e2 : execStep halfOracle ceilingMf 10 (agentStep "s2" (some "b") (some "p2"))
        { steps := [halfRes "s1" "a"],
          context := dictSet [] "steps.s1" (stepDict (halfRes "s1" "a")) }
      = (Except.ok (halfRes "s2" "b"),
         { steps := [halfRes "s1" "a"],
           context := dictSet [] "steps.s1" (stepDict (halfRes "s1" "a")) }) := rfl
  have hsteps : ceilingMf.steps
      = [agentStep "s1" (some "a") (some "p1"), agentStep "s2" (some "b") (some "p2"),
         agentStep "s3" (some "c") (some "p3")] := rfl
  have hctx : ceilingMf.context = ([] : PyDict) := rfl
  have hname : ceilingMf.name = "wf-ceiling" := rfl
  have hmain : runWorkflow halfOracle ceilingMf 10 [] 250
      = { workflowName := "wf-ceiling", success := false,
          steps := [halfRes "s1" "a", halfRes "s2" "b"],
          totalCostUsd := 0 + 0.5 + 0.5, totalDurationMs := 250,
          context := dictSet
            (dictSet [] "steps.s1" (stepDict (halfRes "s1" "a")))
            "steps.s2" (stepDict (halfRes "s2" "b")),
          error := some "비용 또는 시간 상한 초과" } := by
    have hrCost : ∀ nm ag, (halfRes nm ag).costUsd = 0.5 := fun _ _ => rfl
    have hrDur : ∀ nm ag, (halfRes nm ag).durationMs = 100 := fun _ _ => rfl
    have hrSucc : ∀ nm ag, (halfRes nm ag).success = true := fun _ _ => rfl
    have hrSkip : ∀ nm ag, (halfRes nm ag).skipped = false := fun _ _ => rfl
    have haName : ∀ nm a p, (agentStep nm a p).name = nm := fun _ _ _ => rfl
    have haFail : ∀ nm a p, (agentStep nm a p).onFailure = OnFailure.stop :=
      fun _ _ _ => rfl
    have hkey1 : "steps." ++ "s1" = "steps.s1" := rfl
    have hkey2 : "steps." ++ "s2" = "steps.s2" := rfl
    unfold runWorkflow runWithTrace
    rw [hsteps, hctx, hname]
    norm_num [runLoop, e1, e2, checkLimits_ceilingMf, hrCost, hrDur, hrSucc,
      hrSkip, haName, haFail, hkey1, hkey2]
    exact fun h => Option.noConfusion h
  rw [hmain]
  refine ⟨rfl, rfl, rfl, rfl, rfl⟩

end AAC
